import Mathlib

/-!
Verification of the docs-updater action suite: a shallow embedding of the
branch reconciler (`getBranch`), the PR reconciler (`managePR`), documentation
discovery (`findDocumentation`) and the content-targeting helper
(`findSimilarDocs`), together with theorems settling the frozen claims.

Remote calls (octokit) are modelled by an environment record holding a
snapshot of the remote state; each action becomes a pure function from that
environment and its parameters to its returned value plus the list of
mutating remote calls it issues.  JavaScript semantics that matter are kept:
optional values are `Option`, the truthiness of `0`, `""`, `undefined` and
empty arrays is modelled explicitly, and template-literal interpolation of
`undefined` produces the string "undefined".
-/

namespace DocsUpdater

/-- JavaScript `String.prototype.includes`: substring containment. -/
def containsStr (s sub : String) : Bool := decide (sub.data <:+: s.data)

/-- JavaScript `String.prototype.startsWith`: prefix test. -/
def startsWithStr (s marker : String) : Bool := marker.data.isPrefixOf s.data

/-- JavaScript truthiness of an optional number (`undefined` and `0` are falsy). -/
def truthyNum : Option Nat → Bool
  | some n => n != 0
  | none => false

/-- JavaScript truthiness of `xs?.length` for an optional array. -/
def truthyList : Option (List α) → Bool
  | some l => l.length != 0
  | none => false

/-- JavaScript truthiness of an optional string (`undefined` and `""` are falsy). -/
def truthyStr : Option String → Bool
  | some s => s != ""
  | none => false

/-- Template-literal interpolation of a possibly-undefined number:
`` `#${n}` `` yields `#undefined` when `n` is `undefined`. -/
def refString : Option Nat → String
  | some n => "#" ++ toString n
  | none => "#undefined"

/-- An open pull request as returned by `octokit.pulls.list` (the fields the
actions read: `number`, `title`, `body` — nullable — and `head.ref`). -/
structure PullReq where
  number : Nat
  title : String
  body : Option String
  headRef : String
deriving DecidableEq

/-- The title marker literal in `getBranch` (src/actions/commitChange.ts line
168).  The source file holds the bytes `c3 b0 c5 b8 e2 80 9c c5 a1`: the
UTF-8 encoding of the book emoji mis-decoded as Windows-1252, i.e. the four
characters U+00F0, U+0178, U+201C, U+0161. -/
def docMarkerGetBranch : String := "ðŸ“š Update documentation"

/-- The title marker literal in `managePR` and `findDocumentation` (bytes
`f0 9f 93 9a`: the real book emoji U+1F4DA). -/
def docMarker : String := "📚 Update documentation"

/-- The search predicate shape shared by the three sites:
`pr.title.startsWith(marker) && pr.body?.includes(refStr)` (optional chaining
on a null body yields `undefined`, which is falsy). -/
def prMatches (marker refStr : String) (pr : PullReq) : Bool :=
  startsWithStr pr.title marker &&
    (match pr.body with
     | some b => containsStr b refStr
     | none => false)

/-- The existing-documentation-PR predicate as written in `getBranch`
(mojibake marker; only ever evaluated with a present `original_pr_number`). -/
def getBranchPredicate (n : Nat) (pr : PullReq) : Bool :=
  prMatches docMarkerGetBranch (refString (some n)) pr

/-- The existing-documentation-PR predicate as written in `managePR`
(real-emoji marker; `original_pr_number` may be `undefined`). -/
def managePRPredicate (o : Option Nat) (pr : PullReq) : Bool :=
  prMatches docMarker (refString o) pr

/-- The existing-documentation-PR predicate as written in `findDocumentation`
(real-emoji marker; `pull_number` is a required parameter). -/
def findDocPredicate (n : Nat) (pr : PullReq) : Bool :=
  prMatches docMarker (refString (some n)) pr

/-- The `branchInfo` record `getBranch` stores into the pipeline state. -/
structure BranchInfo where
  name : String
  sha : String
  exists_ : Bool
deriving DecidableEq

/-- A `git.createRef` call: the branch name (the code passes the ref
`refs/heads/<name>`) and the commit sha it points at. -/
structure CreatedRef where
  branchName : String
  sha : String
deriving DecidableEq

/-- Snapshot of the remote state a `getBranch`/`managePR` run reads: the open
pull requests, the tip sha of every branch (`git.getRef heads/<b>`), the
repository default branch and the current clock (`Date.now()`). -/
structure GitHubEnv where
  pulls : List PullReq
  branchTip : String → String
  defaultBranch : String
  now : Nat

/-- The branch name `getBranch` generates when no documentation PR is found:
`docs/update-pr-<id>` when `original_pr_number` is truthy, time-based
otherwise. -/
def getBranchNewName (env : GitHubEnv) (o : Option Nat) : String :=
  if truthyNum o then "docs/update-pr-" ++ toString (o.getD 0)
  else "docs/update-" ++ toString env.now

/-- The branch reconciler `getBranch` (src/actions/commitChange.ts lines
155–246): search for an existing documentation PR only when
`original_pr_number` is truthy; if one is found reuse its head branch at its
current tip with no `createRef`; otherwise create exactly one branch off the
default branch tip.  Returns the stored `branchInfo` and the list of
`createRef` calls issued. -/
def getBranchRun (env : GitHubEnv) (o : Option Nat) : BranchInfo × List CreatedRef :=
  let existingPR :=
    if truthyNum o then env.pulls.find? (prMatches docMarkerGetBranch (refString o))
    else none
  match existingPR with
  | some pr =>
      ({ name := pr.headRef, sha := env.branchTip pr.headRef, exists_ := true }, [])
  | none =>
      let branchName := getBranchNewName env o
      let tip := env.branchTip env.defaultBranch
      ({ name := branchName, sha := tip, exists_ := true },
       [{ branchName := branchName, sha := tip }])

/-- The parameters `managePR` validates and reads. -/
structure ManagePRParams where
  title : String
  body : String
  base_branch : Option String
  labels : Option (List String)
  original_pr_number : Option Nat

/-- The mutating remote calls a `managePR` run issues, in the order fields
are listed: `pulls.update`, `issues.setLabels`, `pulls.create`,
`issues.addLabels`, `issues.createComment`. -/
structure ManagePRCalls where
  updates : List (Nat × String × String)
  setLabelsCalls : List (Nat × List String)
  creates : List (String × String × String × String)
  addLabelsCalls : List (Nat × List String)
  comments : List (Nat × String)
deriving DecidableEq

/-- The PR reconciler `managePR` (src/actions/managePR.ts lines 86–180):
always list open PRs and search with the real-emoji marker and the
`#<original_pr_number>` body substring (the literal `#undefined` when the
number is absent).  Found: update that PR in place (and replace labels when a
non-empty label list was supplied).  Not found: resolve the base branch
(explicit truthy parameter, else the repository default) and create exactly
one PR from the reconciled branch, then add labels when supplied and post one
cross-reference comment on the originating PR when its number is truthy.
`newPRNumber` is the number the platform assigns to the created PR;
`branchName` is `state.branchInfo.name`. -/
def managePRRun (env : GitHubEnv) (newPRNumber : Nat) (branchName : String)
    (p : ManagePRParams) : ManagePRCalls :=
  match env.pulls.find? (prMatches docMarker (refString p.original_pr_number)) with
  | some pr =>
      { updates := [(pr.number, p.title, p.body)]
        setLabelsCalls :=
          if truthyList p.labels then [(pr.number, p.labels.getD [])] else []
        creates := []
        addLabelsCalls := []
        comments := [] }
  | none =>
      let base := if truthyStr p.base_branch then p.base_branch.getD "" else env.defaultBranch
      { updates := []
        setLabelsCalls := []
        creates := [(p.title, p.body, branchName, base)]
        addLabelsCalls :=
          if truthyList p.labels then [(newPRNumber, p.labels.getD [])] else []
        comments :=
          if truthyNum p.original_pr_number then
            [(p.original_pr_number.getD 0,
              "I\x27ve created a documentation update PR: #" ++ toString newPRNumber)]
          else [] }

/-- One step of `path.replace(/^src\//, "docs/")`: an anchored prefix
substitution, applied at the character-list level. -/
def replaceSrcRoot (cs : List Char) : List Char :=
  if "src/".data.isPrefixOf cs then "docs/".data ++ cs.drop 4 else cs

/-- One step of `path.replace(/\.[jt]sx?$/, ".mdx")`: the anchored regex
matches exactly a trailing `.tsx`/`.jsx` (length 4, greedy `x?`) or a
trailing `.ts`/`.js` (length 3), which is stripped and replaced by `.mdx`. -/
def replaceSrcExt (cs : List Char) : List Char :=
  if ".tsx".data.isSuffixOf cs || ".jsx".data.isSuffixOf cs then
    cs.take (cs.length - 4) ++ ".mdx".data
  else if ".ts".data.isSuffixOf cs || ".js".data.isSuffixOf cs then
    cs.take (cs.length - 3) ++ ".mdx".data
  else cs

/-- The documentation-path derivation in `findDocumentation`:
`path.replace(/^src\//, "docs/").replace(/\.[jt]sx?$/, ".mdx")`. -/
def deriveDocPath (p : String) : String :=
  String.mk (replaceSrcExt (replaceSrcRoot p.data))

/-- The `type` tag of a discovered documentation file. -/
inductive DocFileType
  | doc
  | navigation
deriving DecidableEq

/-- A discovered documentation file: `content` is `none` where the code stores
`null`, `lastModified` holds the blob sha when the lookup succeeded. -/
structure DocFile where
  path : String
  content : Option String
  ftype : DocFileType
  lastModified : Option String
deriving DecidableEq

/-- A file of the existing documentation PR; a failed content fetch is
recorded as the empty string. -/
structure PRFile where
  path : String
  content : String
deriving DecidableEq

/-- The `existingPR` snapshot `findDocumentation` stores. -/
structure ExistingPR where
  number : Nat
  branch : String
  files : List PRFile
deriving DecidableEq

/-- The `docInfo` record `findDocumentation` stores. -/
structure DocInfo where
  files : List DocFile
  existingPR : Option ExistingPR
deriving DecidableEq

/-- Result of a successful `repos.getContent`: the decoded content and the
blob sha. -/
structure FileData where
  content : String
  sha : String
deriving DecidableEq

/-- Snapshot of the remote state a `findDocumentation` run reads: the open
pull requests, the changed-file list of each PR (`pulls.listFiles`) and the
file contents by `(path, ref)`.  `getContent path ref = none` models both a
thrown `repos.getContent` error and a response without a `content` field —
the two cases the code collapses into "content absent". -/
structure RepoContentEnv where
  pulls : List PullReq
  listFiles : Nat → List String
  getContent : String → String → Option FileData

/-- The per-file lookup of a changed file of the existing documentation PR:
on failure the file is recorded with empty content, never propagated. -/
def lookupPRFile (env : RepoContentEnv) (headRef filename : String) : PRFile :=
  match env.getContent filename headRef with
  | some fd => { path := filename, content := fd.content }
  | none => { path := filename, content := "" }

/-- The per-path lookup of a derived documentation path on the stable branch
(`ref: "main"`): on failure the file is recorded with absent content, never
propagated. -/
def lookupDocFile (env : RepoContentEnv) (path : String) : DocFile :=
  let docPath := deriveDocPath path
  match env.getContent docPath "main" with
  | some fd =>
      { path := docPath, content := some fd.content, ftype := .doc,
        lastModified := some fd.sha }
  | none =>
      { path := docPath, content := none, ftype := .doc, lastModified := none }

/-- The always-performed navigation lookup of `mint.json` on the stable
branch; absence is recorded, not fatal. -/
def lookupMintJson (env : RepoContentEnv) : DocFile :=
  match env.getContent "mint.json" "main" with
  | some fd =>
      { path := "mint.json", content := some fd.content, ftype := .navigation,
        lastModified := some fd.sha }
  | none =>
      { path := "mint.json", content := none, ftype := .navigation,
        lastModified := none }

/-- Documentation discovery `findDocumentation` (src/actions/findDocumentation):
search for an existing documentation PR with the real-emoji predicate; when
found, fetch every file changed in that PR from its head branch; derive a
documentation path for every changed source path and look it up on `main`;
finally look up `mint.json`.  Every per-file fetch failure is caught locally. -/
def findDocumentationRun (env : RepoContentEnv) (pull_number : Nat)
    (paths : List String) : DocInfo :=
  let docsPR := env.pulls.find? (prMatches docMarker (refString (some pull_number)))
  let existingPR := docsPR.map fun pr =>
    { number := pr.number
      branch := pr.headRef
      files := (env.listFiles pr.number).map (lookupPRFile env pr.headRef) }
  { files := paths.map (lookupDocFile env) ++ [lookupMintJson env]
    existingPR := existingPR }

/-- JavaScript truthiness of a `string | null` content field (`null` and `""`
are falsy). -/
def truthyContent : Option String → Bool
  | some s => s != ""
  | none => false

/-- The category filter of `findSimilarDocs`: known files of type `doc` with
truthy content, other than the target path, whose path contains the substring
`/<category>/`. -/
def categorySimilar (path category : String) (files : List DocFile) : List DocFile :=
  files.filter fun f =>
    f.ftype == .doc && truthyContent f.content && f.path != path &&
      containsStr f.path ("/" ++ category ++ "/")

/-- The template selector `findSimilarDocs` (src/actions/commitChange.ts lines
267–296): when a non-empty `template_paths` array is supplied and at least one
known file at those paths has truthy content, return exactly those contents;
otherwise fall through to the category filter. -/
def findSimilarDocs (path category : String) (templatePaths : Option (List String))
    (docInfo : Option DocInfo) : List String :=
  let files := (docInfo.map DocInfo.files).getD []
  let templates :=
    if truthyList templatePaths then
      files.filter fun f => (templatePaths.getD []).contains f.path && truthyContent f.content
    else []
  if templates.length != 0 then templates.map fun f => f.content.getD ""
  else (categorySimilar path category files).map fun f => f.content.getD ""

/-- The category computed by `writeDocumentation`:
`params.path.split("/").slice(-2, -1)[0]`, i.e. the second-to-last segment,
`undefined` when the path has fewer than two segments. -/
def categoryOf (path : String) : Option String :=
  let parts := path.data.splitOn '/'
  if h : 2 ≤ parts.length then some (String.mk (parts.get ⟨parts.length - 2, by omega⟩))
  else none

/-- Template-literal interpolation of a possibly-undefined string. -/
def jsStr : Option String → String
  | some s => s
  | none => "undefined"

/-- The content-quality gate of `writeDocumentation` for `type = "doc"`
(src/actions/commitChange.ts lines 530–539): the generated content is rejected
when it is shorter than 100 characters, contains `TODO` or `placeholder`, or
lacks a code fence. -/
def contentQualityRejects (content : String) : Bool :=
  decide (content.length < 100) || containsStr content "TODO" ||
    containsStr content "placeholder" || !containsStr content "```"

/-! ## Claim theorems -/

/-- A concrete open pull request carrying the real-emoji documentation marker
and a body reference to originating PR 7. -/
def claim1PR : PullReq :=
  { number := 12, title := "📚 Update documentation for auth"
    body := some "Updates docs for #7", headRef := "docs/update-pr-7" }

/-- C1: the claim says the existing-documentation-PR search predicate is
identical in `getBranch`, `managePR` and `findDocumentation`.  The PR and
discovery reconcilers do share one predicate, but `getBranch`'s title marker
is a different literal (the book emoji mis-decoded as Windows-1252), so on a
PR titled with the real-emoji marker and a `#7` body reference the other two
sites select the PR while `getBranch` does not.  The spec itself (§4.3
invariant, §9) treats this divergence as a latent bug, so the code, not the
claim, is wrong. -/
theorem claim1_predicate_divergence :
    (∀ (n : Nat) (pr : PullReq), managePRPredicate (some n) pr = findDocPredicate n pr) ∧
    managePRPredicate (some 7) claim1PR = true ∧
    findDocPredicate 7 claim1PR = true ∧
    getBranchPredicate 7 claim1PR = false ∧
    docMarkerGetBranch ≠ docMarker := by
  refine ⟨fun n pr => rfl, by decide, by decide, by decide, by decide⟩

/-- A concrete open pull request carrying `getBranch`'s mojibake marker and a
body reference to originating PR 7. -/
def claim2PR : PullReq :=
  { number := 12, title := "ðŸ“š Update documentation for auth"
    body := some "Updates docs for #7", headRef := "docs/update-pr-7" }

/-- A remote snapshot whose only open PR matches `getBranch`'s predicate. -/
def claim2Env : GitHubEnv :=
  { pulls := [claim2PR], branchTip := fun _ => "tipsha"
    defaultBranch := "main", now := 1700000000000 }

/-- A remote snapshot with no open PRs. -/
def claim3Env : GitHubEnv :=
  { pulls := [], branchTip := fun _ => "basetip"
    defaultBranch := "main", now := 1700000000000 }

/-- C2: when an originating PR number is supplied (GitHub numbers are
positive, hence `0 < n`) and an open PR matches `getBranch`'s documentation-PR
predicate, the run returns that PR's head ref with its current tip and
`exists: true`, and issues no `createRef` call.  `getBranchRun` is a pure
function of the remote snapshot, so repeated runs against the same remote
state return the identical branch name. -/
theorem claim2_branch_reuse (env : GitHubEnv) (n : Nat) (hn : 0 < n)
    (pr : PullReq) (hfind : env.pulls.find? (getBranchPredicate n) = some pr) :
    getBranchRun env (some n) =
      ({ name := pr.headRef, sha := env.branchTip pr.headRef, exists_ := true }, []) := by
  have ht : truthyNum (some n) = true := by
    simp only [truthyNum, bne_iff_ne, ne_eq]
    omega
  have hfind' : env.pulls.find? (prMatches docMarkerGetBranch (refString (some n))) = some pr :=
    hfind
  unfold getBranchRun
  simp only [ht, if_true, hfind']

/-- Witness for C2 at a concrete remote snapshot holding one matching PR. -/
theorem claim2_branch_reuse_witness :
    (0 : Nat) < 7 ∧
    claim2Env.pulls.find? (getBranchPredicate 7) = some claim2PR ∧
    getBranchRun claim2Env (some 7) =
      ({ name := "docs/update-pr-7", sha := "tipsha", exists_ := true }, []) := by
  refine ⟨by decide, by decide, ?_⟩
  exact claim2_branch_reuse claim2Env 7 (by decide) claim2PR (by decide)

/-- C3: when no open PR matches the predicate (for a supplied positive
originating PR number; with no number the search is skipped and nothing can
match), exactly one branch is created: it is named `docs/update-pr-<id>` when
the id is supplied and time-based otherwise, it points at the default
branch's tip, and the returned `branchInfo` carries that name and tip with
`exists: true`. -/
theorem claim3_branch_create (env : GitHubEnv) (o : Option Nat)
    (hv : ∀ n, o = some n → 0 < n)
    (hnone : ∀ n, o = some n → env.pulls.find? (getBranchPredicate n) = none) :
    getBranchRun env o =
      ({ name := getBranchNewName env o, sha := env.branchTip env.defaultBranch,
         exists_ := true },
       [{ branchName := getBranchNewName env o, sha := env.branchTip env.defaultBranch }]) ∧
    (∀ n, o = some n → getBranchNewName env o = "docs/update-pr-" ++ toString n) ∧
    (o = none → getBranchNewName env o = "docs/update-" ++ toString env.now) := by
  match o with
  | none =>
      refine ⟨?_, ?_, ?_⟩
      · unfold getBranchRun
        simp [truthyNum]
      · intro n h
        exact nomatch h
      · intro _
        simp [getBranchNewName, truthyNum]
  | some n =>
      have hn : 0 < n := hv n rfl
      have ht : truthyNum (some n) = true := by
        simp only [truthyNum, bne_iff_ne, ne_eq]
        omega
      have hfind' : env.pulls.find? (prMatches docMarkerGetBranch (refString (some n))) = none :=
        hnone n rfl
      refine ⟨?_, ?_, ?_⟩
      · unfold getBranchRun
        simp only [ht, if_true, hfind']
      · intro m h
        cases h
        simp [getBranchNewName, ht]
      · intro h
        exact nomatch h

/-- Witness for C3 at a concrete remote snapshot with no open PRs. -/
theorem claim3_branch_create_witness :
    (∀ n, (some 9 : Option Nat) = some n → 0 < n) ∧
    (∀ n, (some 9 : Option Nat) = some n →
      claim3Env.pulls.find? (getBranchPredicate n) = none) ∧
    getBranchRun claim3Env (some 9) =
      ({ name := "docs/update-pr-9", sha := "basetip", exists_ := true },
       [{ branchName := "docs/update-pr-9", sha := "basetip" }]) := by
  have h1 : ∀ n, (some 9 : Option Nat) = some n → 0 < n := by
    intro n h
    cases h
    decide
  have h2 : ∀ n, (some 9 : Option Nat) = some n →
      claim3Env.pulls.find? (getBranchPredicate n) = none := by
    intro n h
    cases h
    rfl
  refine ⟨h1, h2, ?_⟩
  have := (claim3_branch_create claim3Env (some 9) h1 h2).1
  rw [this]
  rfl

/-- C7: the content-quality gate of `writeDocumentation` rejects every
generated string of length 40 without a code fence (it is below the
100-character minimum), and accepts every generated string of length 500 that
contains a fenced code block and neither `TODO` nor `placeholder`. -/
theorem claim7_content_gate :
    (∀ c : String, c.length = 40 → containsStr c "```" = false →
      contentQualityRejects c = true) ∧
    (∀ c : String, c.length = 500 → containsStr c "```" = true →
      containsStr c "TODO" = false → containsStr c "placeholder" = false →
      contentQualityRejects c = false) := by
  constructor
  · intro c hlen _
    unfold contentQualityRejects
    rw [hlen]
    simp
  · intro c hlen hfence htodo hph
    unfold contentQualityRejects
    rw [hlen, hfence, htodo, hph]
    simp

set_option maxRecDepth 8000 in
/-- Witness for C7: a 40-character fence-free string is rejected and a
500-character string opening with a code fence is accepted. -/
theorem claim7_content_gate_witness :
    contentQualityRejects (String.mk (List.replicate 40 'a')) = true ∧
    contentQualityRejects (String.mk ("```".data ++ List.replicate 497 'a')) = false := by
  constructor
  · exact claim7_content_gate.1 _ (by decide) (by decide)
  · exact claim7_content_gate.2 _ (by decide) (by decide) (by decide) (by decide)

/-- C4: a `managePR` run with a matching open documentation PR updates it and
never creates one; with no match it creates exactly one PR (into the explicit
base branch when a truthy one is supplied, the repository default otherwise)
and never updates one, and in the create path exactly one comment is posted —
on the originating change — iff an originating PR number was supplied
(GitHub numbers are positive, hence the `0 < n` side condition). -/
theorem claim4_pr_reconcile (env : GitHubEnv) (num : Nat) (branch : String)
    (p : ManagePRParams) (hv : ∀ n, p.original_pr_number = some n → 0 < n) :
    (∀ pr, env.pulls.find? (managePRPredicate p.original_pr_number) = some pr →
      (managePRRun env num branch p).updates = [(pr.number, p.title, p.body)] ∧
      (managePRRun env num branch p).creates = []) ∧
    (env.pulls.find? (managePRPredicate p.original_pr_number) = none →
      (managePRRun env num branch p).creates =
        [(p.title, p.body, branch,
          if truthyStr p.base_branch then p.base_branch.getD "" else env.defaultBranch)] ∧
      (managePRRun env num branch p).updates = [] ∧
      ((managePRRun env num branch p).comments.length = 1 ↔
        p.original_pr_number.isSome = true) ∧
      (∀ n, p.original_pr_number = some n →
        (managePRRun env num branch p).comments =
          [(n, "I\x27ve created a documentation update PR: #" ++ toString num)])) := by
  constructor
  · intro pr hfind
    have hfind' :
        env.pulls.find? (prMatches docMarker (refString p.original_pr_number)) = some pr :=
      hfind
    unfold managePRRun
    rw [hfind']
    exact ⟨rfl, rfl⟩
  · intro hfind
    have hfind' :
        env.pulls.find? (prMatches docMarker (refString p.original_pr_number)) = none :=
      hfind
    unfold managePRRun
    rw [hfind']
    refine ⟨rfl, rfl, ?_, ?_⟩
    · match ho : p.original_pr_number with
      | none => simp [truthyNum]
      | some n =>
          have hn : 0 < n := hv n ho
          have ht : truthyNum (some n) = true := by
            simp only [truthyNum, bne_iff_ne, ne_eq]
            omega
          simp [ht]
    · intro n ho
      have hn : 0 < n := hv n ho
      have ht : truthyNum (some n) = true := by
        simp only [truthyNum, bne_iff_ne, ne_eq]
        omega
      rw [ho]
      simp [ht]

/-- Parameters of a concrete `managePR` invocation carrying originating PR
number 3. -/
def claim4Params : ManagePRParams :=
  { title := "📚 Update documentation for PR 3", body := "Updates docs for #3"
    base_branch := none, labels := none, original_pr_number := some 3 }

/-- Witness for C4 at a concrete snapshot with no open PRs: the create path
runs, one PR and one comment are produced. -/
theorem claim4_pr_reconcile_witness :
    (∀ n, claim4Params.original_pr_number = some n → 0 < n) ∧
    claim3Env.pulls.find? (managePRPredicate claim4Params.original_pr_number) = none ∧
    (managePRRun claim3Env 55 "docs/update-pr-3" claim4Params).creates =
      [("📚 Update documentation for PR 3", "Updates docs for #3",
        "docs/update-pr-3", "main")] ∧
    (managePRRun claim3Env 55 "docs/update-pr-3" claim4Params).updates = [] ∧
    (managePRRun claim3Env 55 "docs/update-pr-3" claim4Params).comments =
      [(3, "I\x27ve created a documentation update PR: #55")] := by
  have hv : ∀ n, claim4Params.original_pr_number = some n → 0 < n := by
    intro n h
    cases h
    decide
  have h := (claim4_pr_reconcile claim3Env 55 "docs/update-pr-3" claim4Params hv).2 rfl
  refine ⟨hv, rfl, ?_, h.2.1, ?_⟩
  · rw [h.1]
    rfl
  · rw [h.2.2.2 3 rfl]
    rfl

/-- C10: `managePR` invoked without an `original_pr_number` still performs
the search (its result depends on the open-PR list, whereas `getBranch` with
no number ignores it entirely), and the body test degenerates to a substring
check for the literal `#undefined`; a PR matching marker plus `#undefined` is
updated in place and nothing is created. -/
theorem claim10_undefined_reference (env : GitHubEnv) (num : Nat) (branch : String)
    (p : ManagePRParams) (ho : p.original_pr_number = none) :
    (env.pulls.find? (managePRPredicate p.original_pr_number) =
      env.pulls.find? fun pr =>
        startsWithStr pr.title docMarker &&
          (match pr.body with
           | some b => containsStr b "#undefined"
           | none => false)) ∧
    (∀ pr, env.pulls.find? (managePRPredicate p.original_pr_number) = some pr →
      (managePRRun env num branch p).updates = [(pr.number, p.title, p.body)] ∧
      (managePRRun env num branch p).creates = []) ∧
    (∀ pulls' : List PullReq,
      getBranchRun { env with pulls := pulls' } none = getBranchRun env none) := by
  refine ⟨?_, ?_, ?_⟩
  · rw [ho]
    rfl
  · intro pr hfind
    have hfind' :
        env.pulls.find? (prMatches docMarker (refString p.original_pr_number)) = some pr :=
      hfind
    unfold managePRRun
    rw [hfind']
    exact ⟨rfl, rfl⟩
  · intro pulls'
    unfold getBranchRun
    simp [truthyNum, getBranchNewName]

/-- A concrete open pull request whose body contains the literal
`#undefined`. -/
def claim10PR : PullReq :=
  { number := 21, title := "📚 Update documentation sweep"
    body := some "Automated docs refresh for #undefined", headRef := "docs/update-1700" }

/-- Parameters of a concrete `managePR` invocation with no originating PR
number. -/
def claim10Params : ManagePRParams :=
  { title := "📚 Update documentation sweep", body := "refresh"
    base_branch := none, labels := none, original_pr_number := none }

/-- A remote snapshot whose only open PR is `claim10PR`. -/
def claim10Env : GitHubEnv :=
  { pulls := [claim10PR], branchTip := fun _ => "tip10"
    defaultBranch := "main", now := 1700000000000 }

/-- Witness for C10: with no originating number the `#undefined`-matching PR
is found and updated in place. -/
theorem claim10_undefined_reference_witness :
    claim10Params.original_pr_number = none ∧
    claim10Env.pulls.find? (managePRPredicate claim10Params.original_pr_number) =
      some claim10PR ∧
    (managePRRun claim10Env 99 "docs/update-1700" claim10Params).updates =
      [(21, "📚 Update documentation sweep", "refresh")] ∧
    (managePRRun claim10Env 99 "docs/update-1700" claim10Params).creates = [] := by
  have h :=
    (claim10_undefined_reference claim10Env 99 "docs/update-1700" claim10Params rfl).2.1
      claim10PR (by decide)
  exact ⟨rfl, by decide, h.1, h.2⟩

/-! Helper lemmas about the characters of `Nat.repr`, used for the branch
name shape (claim C5). -/

/-- The characters `Nat.digitChar` can produce. -/
def digitChars : List Char := "0123456789abcdef*".data

lemma digitChar_mem (d : Nat) : Nat.digitChar d ∈ digitChars := by
  match d with
  | 0 => decide
  | 1 => decide
  | 2 => decide
  | 3 => decide
  | 4 => decide
  | 5 => decide
  | 6 => decide
  | 7 => decide
  | 8 => decide
  | 9 => decide
  | 10 => decide
  | 11 => decide
  | 12 => decide
  | 13 => decide
  | 14 => decide
  | 15 => decide
  | n + 16 =>
    have h : Nat.digitChar (n + 16) = '*' := by
      unfold Nat.digitChar
      repeat rw [if_neg (by omega)]
    rw [h]
    decide

lemma toDigitsCore_mem (fuel : Nat) :
    ∀ (n : Nat) (acc : List Char), (∀ c ∈ acc, c ∈ digitChars) →
      ∀ c ∈ Nat.toDigitsCore 10 fuel n acc, c ∈ digitChars := by
  induction fuel with
  | zero =>
      intro n acc hacc c hc
      simp only [Nat.toDigitsCore] at hc
      exact hacc c hc
  | succ fuel ih =>
      intro n acc hacc c hc
      simp only [Nat.toDigitsCore] at hc
      by_cases h : n / 10 = 0
      · rw [if_pos h] at hc
        rcases List.mem_cons.1 hc with h' | h'
        · rw [h']
          exact digitChar_mem _
        · exact hacc c h'
      · rw [if_neg h] at hc
        refine ih (n / 10) _ ?_ c hc
        intro c' hc'
        rcases List.mem_cons.1 hc' with h' | h'
        · rw [h']
          exact digitChar_mem _
        · exact hacc c' h'

lemma toString_nat_mem (n : Nat) : ∀ c ∈ (toString n).data, c ∈ digitChars := by
  intro c hc
  have h : (toString n : String).data = Nat.toDigitsCore 10 (n + 1) n [] := rfl
  rw [h] at hc
  exact toDigitsCore_mem (n + 1) n []
    (by intro c' hc'; exact absurd hc' (List.not_mem_nil c')) c hc

lemma numSuffixName_ok (s : String) (n : Nat) (hs1 : ' ' ∉ s.data)
    (hs2 : s.data.count '/' = 1) :
    (' ' ∉ (s ++ toString n).data) ∧ (s ++ toString n).data.count '/' = 1 := by
  rw [String.data_append]
  constructor
  · intro hmem
    rcases List.mem_append.1 hmem with h | h
    · exact hs1 h
    · exact absurd (toString_nat_mem n ' ' h) (by decide)
  · rw [List.count_append, hs2]
    have h1 : (toString n).data.count '/' = 0 := by
      rw [List.count_eq_zero]
      intro hmem
      exact absurd (toString_nat_mem n '/' hmem) (by decide)
    rw [h1]

lemma getBranchNewName_ok (env : GitHubEnv) (o : Option Nat) :
    (' ' ∉ (getBranchNewName env o).data) ∧
      (getBranchNewName env o).data.count '/' = 1 := by
  unfold getBranchNewName
  split
  · exact numSuffixName_ok "docs/update-pr-" _ (by decide) (by decide)
  · exact numSuffixName_ok "docs/update-" _ (by decide) (by decide)

/-- C5 counterexample: the claim says every branch name passed to the
branch-creation call contains no slash, but the name `getBranch` creates for
originating PR 42 is `docs/update-pr-42`, which contains one. -/
theorem claim5_counterexample :
    (getBranchRun claim3Env (some 42)).2 =
      [{ branchName := "docs/update-pr-42", sha := "basetip" }] ∧
    '/' ∈ ("docs/update-pr-42" : String).data := by
  exact ⟨by decide, by decide⟩

/-- C5 amended: `getBranch` applies no substitution transform; every branch
name it passes to creation is `docs/update-pr-<id>` or `docs/update-<now>`,
which contains no space character but does contain exactly one slash — the
one of the fixed `docs/` prefix. -/
theorem claim5_branch_name_shape (env : GitHubEnv) (o : Option Nat)
    (cr : CreatedRef) (hcr : cr ∈ (getBranchRun env o).2) :
    cr.branchName = getBranchNewName env o ∧
    (' ' ∉ cr.branchName.data) ∧ cr.branchName.data.count '/' = 1 := by
  have hname : cr.branchName = getBranchNewName env o := by
    unfold getBranchRun at hcr
    split at hcr
    · cases hfind : env.pulls.find? (prMatches docMarkerGetBranch (refString o)) with
      | some pr =>
          rw [hfind] at hcr
          exact absurd hcr (List.not_mem_nil cr)
      | none =>
          rw [hfind] at hcr
          rw [List.mem_singleton.1 hcr]
    · rw [List.mem_singleton.1 hcr]
  refine ⟨hname, ?_, ?_⟩
  · rw [hname]
    exact (getBranchNewName_ok env o).1
  · rw [hname]
    exact (getBranchNewName_ok env o).2

/-- Witness for C5 amended, at the branch created for originating PR 42. -/
theorem claim5_branch_name_shape_witness :
    ({ branchName := "docs/update-pr-42", sha := "basetip" } : CreatedRef) ∈
      (getBranchRun claim3Env (some 42)).2 ∧
    (' ' ∉ ("docs/update-pr-42" : String).data) ∧
    ("docs/update-pr-42" : String).data.count '/' = 1 := by
  have hmem : ({ branchName := "docs/update-pr-42", sha := "basetip" } : CreatedRef) ∈
      (getBranchRun claim3Env (some 42)).2 := by decide
  exact ⟨hmem, (claim5_branch_name_shape claim3Env (some 42) _ hmem).2⟩

/-! Helper lemmas about prefixes and suffixes of character lists, used for
the documentation-path derivation (claim C6). -/

lemma replaceSrcRoot_append (t : List Char) :
    replaceSrcRoot ("src/".data ++ t) = "docs/".data ++ t := by
  unfold replaceSrcRoot
  rw [if_pos]
  · rw [List.drop_left' (show ("src/".data).length = 4 from rfl)]
  · rw [List.isPrefixOf_iff_prefix]
    exact List.prefix_append _ _

lemma isSuffixOf_append_self (s t : List Char) : s.isSuffixOf (t ++ s) = true := by
  rw [List.isSuffixOf_iff_suffix]
  exact List.suffix_append _ _

lemma getLast?_of_isSuffixOf {s t : List Char} (h : s.isSuffixOf t = true)
    (hs : s ≠ []) : t.getLast? = s.getLast? := by
  rw [List.isSuffixOf_iff_suffix] at h
  obtain ⟨w, rfl⟩ := h
  exact List.getLast?_append_of_ne_nil w hs

lemma isSuffixOf_false_of_last (s t : List Char) (c c' : Char)
    (hs : s.getLast? = some c) (ht : t.getLast? = some c') (hne : c ≠ c') :
    s.isSuffixOf t = false := by
  by_contra hc
  rw [Bool.not_eq_false] at hc
  have hsn : s ≠ [] := by
    intro h
    rw [h] at hs
    exact nomatch hs
  have h := getLast?_of_isSuffixOf hc hsn
  rw [ht, hs] at h
  exact hne (Option.some.inj h).symm

lemma getLast?_append_lit (pre e : List Char) (c : Char) (he : e.getLast? = some c) :
    (pre ++ e).getLast? = some c := by
  rw [List.getLast?_append_of_ne_nil pre (by intro h; rw [h] at he; exact nomatch he)]
  exact he

lemma take_sub_append (pre e : List Char) :
    (pre ++ e).take ((pre ++ e).length - e.length) = pre := by
  rw [List.length_append, Nat.add_sub_cancel, List.take_left]

lemma replaceSrcExt_ts (pre : List Char) :
    replaceSrcExt (pre ++ ".ts".data) = pre ++ ".mdx".data := by
  unfold replaceSrcExt
  have h1 : ".tsx".data.isSuffixOf (pre ++ ".ts".data) = false :=
    isSuffixOf_false_of_last _ _ 'x' 's' (by decide)
      (getLast?_append_lit _ _ 's' (by decide)) (by decide)
  have h2 : ".jsx".data.isSuffixOf (pre ++ ".ts".data) = false :=
    isSuffixOf_false_of_last _ _ 'x' 's' (by decide)
      (getLast?_append_lit _ _ 's' (by decide)) (by decide)
  have h3 : ".ts".data.isSuffixOf (pre ++ ".ts".data) = true :=
    isSuffixOf_append_self _ _
  rw [h1, h2, h3]
  simp only [Bool.false_or, Bool.or_false, Bool.true_or, Bool.false_eq_true,
    ite_false, ite_true]
  rw [show (3 : Nat) = (".ts".data).length from rfl, take_sub_append]

lemma replaceSrcExt_tsx (pre : List Char) :
    replaceSrcExt (pre ++ ".tsx".data) = pre ++ ".mdx".data := by
  unfold replaceSrcExt
  have h1 : ".tsx".data.isSuffixOf (pre ++ ".tsx".data) = true :=
    isSuffixOf_append_self _ _
  rw [h1]
  simp only [Bool.true_or, ite_true]
  rw [show (4 : Nat) = (".tsx".data).length from rfl, take_sub_append]

lemma replaceSrcExt_js (pre : List Char) :
    replaceSrcExt (pre ++ ".js".data) = pre ++ ".mdx".data := by
  unfold replaceSrcExt
  have h1 : ".tsx".data.isSuffixOf (pre ++ ".js".data) = false :=
    isSuffixOf_false_of_last _ _ 'x' 's' (by decide)
      (getLast?_append_lit _ _ 's' (by decide)) (by decide)
  have h2 : ".jsx".data.isSuffixOf (pre ++ ".js".data) = false :=
    isSuffixOf_false_of_last _ _ 'x' 's' (by decide)
      (getLast?_append_lit _ _ 's' (by decide)) (by decide)
  have h3 : ".js".data.isSuffixOf (pre ++ ".js".data) = true :=
    isSuffixOf_append_self _ _
  rw [h1, h2, h3]
  simp only [Bool.false_or, Bool.or_true, Bool.false_eq_true, ite_false, ite_true]
  rw [show (3 : Nat) = (".js".data).length from rfl, take_sub_append]

lemma replaceSrcExt_jsx (pre : List Char) :
    replaceSrcExt (pre ++ ".jsx".data) = pre ++ ".mdx".data := by
  unfold replaceSrcExt
  have h1 : ".jsx".data.isSuffixOf (pre ++ ".jsx".data) = true :=
    isSuffixOf_append_self _ _
  rw [h1]
  simp only [Bool.or_true, ite_true]
  rw [show (4 : Nat) = (".jsx".data).length from rfl, take_sub_append]

lemma deriveDocPath_shape (rest ext : List Char)
    (h : ∀ pre : List Char, replaceSrcExt (pre ++ ext) = pre ++ ".mdx".data) :
    deriveDocPath (String.mk ("src/".data ++ rest ++ ext)) =
      String.mk ("docs/".data ++ rest ++ ".mdx".data) := by
  unfold deriveDocPath
  have hdata : (String.mk ("src/".data ++ rest ++ ext)).data =
      "src/".data ++ (rest ++ ext) := by
    rw [List.append_assoc]
  rw [hdata, replaceSrcRoot_append,
    show "docs/".data ++ (rest ++ ext) = ("docs/".data ++ rest) ++ ext from
      (List.append_assoc _ _ _).symm,
    h, List.append_assoc]

/-- C6: the documentation-path derivation replaces a leading `src/` with
`docs/` and a trailing `.ts`, `.tsx`, `.js` or `.jsx` with `.mdx`, for every
well-formed source path; in particular `src/foo/bar.ts` maps to
`docs/foo/bar.mdx`.  It is a total Lean function, hence deterministic:
identical inputs yield identical outputs. -/
theorem claim6_doc_path_derivation :
    (∀ rest : List Char,
      deriveDocPath (String.mk ("src/".data ++ rest ++ ".ts".data)) =
        String.mk ("docs/".data ++ rest ++ ".mdx".data)) ∧
    (∀ rest : List Char,
      deriveDocPath (String.mk ("src/".data ++ rest ++ ".tsx".data)) =
        String.mk ("docs/".data ++ rest ++ ".mdx".data)) ∧
    (∀ rest : List Char,
      deriveDocPath (String.mk ("src/".data ++ rest ++ ".js".data)) =
        String.mk ("docs/".data ++ rest ++ ".mdx".data)) ∧
    (∀ rest : List Char,
      deriveDocPath (String.mk ("src/".data ++ rest ++ ".jsx".data)) =
        String.mk ("docs/".data ++ rest ++ ".mdx".data)) ∧
    deriveDocPath "src/foo/bar.ts" = "docs/foo/bar.mdx" := by
  refine ⟨fun rest => deriveDocPath_shape rest _ replaceSrcExt_ts,
    fun rest => deriveDocPath_shape rest _ replaceSrcExt_tsx,
    fun rest => deriveDocPath_shape rest _ replaceSrcExt_js,
    fun rest => deriveDocPath_shape rest _ replaceSrcExt_jsx, by decide⟩

/-- C8: per-file content-fetch failures in discovery are isolated.  Against a
remote `env'` that fails every read of one path `bad` but otherwise behaves
like `env`, discovery still returns one record per changed path plus the
navigation entry; the record of a path whose derived documentation path is
`bad` carries absent content (and a changed existing-PR file at `bad` carries
empty content), while every other path's record is exactly what the
failure-free remote yields. -/
theorem claim8_discovery_isolation (env env' : RepoContentEnv) (pn : Nat)
    (paths : List String) (bad : String)
    (hagree : ∀ p r, p ≠ bad → env'.getContent p r = env.getContent p r)
    (hfail : ∀ r, env'.getContent bad r = none) :
    (findDocumentationRun env' pn paths).files.length = paths.length + 1 ∧
    (findDocumentationRun env' pn paths).files =
      paths.map (lookupDocFile env') ++ [lookupMintJson env'] ∧
    (∀ p ∈ paths, deriveDocPath p = bad →
      lookupDocFile env' p =
        { path := bad, content := none, ftype := .doc, lastModified := none }) ∧
    (∀ p ∈ paths, deriveDocPath p ≠ bad →
      lookupDocFile env' p = lookupDocFile env p) ∧
    (∀ ref, lookupPRFile env' ref bad = { path := bad, content := "" }) ∧
    (∀ ref f, f ≠ bad → lookupPRFile env' ref f = lookupPRFile env ref f) ∧
    (∀ e, (findDocumentationRun env' pn paths).existingPR = some e →
      e.files.length = (env'.listFiles e.number).length) := by
  refine ⟨?_, rfl, ?_, ?_, ?_, ?_, ?_⟩
  · unfold findDocumentationRun
    simp
  · intro p _ hbad
    unfold lookupDocFile
    rw [hbad]
    simp only [hfail]
  · intro p _ hbad
    unfold lookupDocFile
    simp only [hagree (deriveDocPath p) "main" hbad]
  · intro ref
    unfold lookupPRFile
    rw [hfail ref]
  · intro ref f hf
    unfold lookupPRFile
    rw [hagree _ _ hf]
  · intro e he
    unfold findDocumentationRun at he
    cases hf : env'.pulls.find? (prMatches docMarker (refString (some pn))) with
    | none =>
        rw [hf] at he
        exact nomatch he
    | some pr =>
        rw [hf] at he
        have he' := Option.some.inj he
        rw [← he']
        simp

/-- The readable remote snapshot for the C8 witness. -/
def claim8Env : RepoContentEnv :=
  { pulls := [], listFiles := fun _ => ["docs/a.mdx", "docs/guide.mdx"]
    getContent := fun _ _ => some { content := "prior content", sha := "blobsha" } }

/-- The same snapshot with every read of `docs/a.mdx` failing. -/
def claim8EnvBad : RepoContentEnv :=
  { pulls := [], listFiles := fun _ => ["docs/a.mdx", "docs/guide.mdx"]
    getContent := fun p _ =>
      if p = "docs/a.mdx" then none
      else some { content := "prior content", sha := "blobsha" } }

/-- Witness for C8 with changed paths `src/a.ts` and `src/b.ts`, where only
the derived path `docs/a.mdx` is unreadable. -/
theorem claim8_discovery_isolation_witness :
    (∀ p r, p ≠ "docs/a.mdx" →
      claim8EnvBad.getContent p r = claim8Env.getContent p r) ∧
    (∀ r, claim8EnvBad.getContent "docs/a.mdx" r = none) ∧
    (findDocumentationRun claim8EnvBad 4 ["src/a.ts", "src/b.ts"]).files.length = 3 ∧
    lookupDocFile claim8EnvBad "src/a.ts" =
      { path := "docs/a.mdx", content := none, ftype := .doc, lastModified := none } ∧
    lookupDocFile claim8EnvBad "src/b.ts" = lookupDocFile claim8Env "src/b.ts" ∧
    lookupPRFile claim8EnvBad "docs/update-pr-4" "docs/a.mdx" =
      { path := "docs/a.mdx", content := "" } := by
  have hagree : ∀ p r, p ≠ "docs/a.mdx" →
      claim8EnvBad.getContent p r = claim8Env.getContent p r := by
    intro p r hp
    show (if p = "docs/a.mdx" then none else some _) = _
    rw [if_neg hp]
    rfl
  have hfail : ∀ r, claim8EnvBad.getContent "docs/a.mdx" r = none := by
    intro r
    rfl
  have h := claim8_discovery_isolation claim8Env claim8EnvBad 4
    ["src/a.ts", "src/b.ts"] "docs/a.mdx" hagree hfail
  refine ⟨hagree, hfail, h.1, ?_, ?_, h.2.2.2.2.1 "docs/update-pr-4"⟩
  · exact h.2.2.1 "src/a.ts" (by decide) (by decide)
  · exact h.2.2.2.1 "src/b.ts" (by decide) (by decide)

/-! Claim C9: the category branch of template selection. -/

/-- The category-branch selection as the claim words it: known files of kind
doc with non-absent content, excluding the target path, whose second-to-last
path segment equals the target's.  Worded from the claim for comparison with
the code's `findSimilarDocs`. -/
def claimedCategorySelection (path : String) (files : List DocFile) : List String :=
  (files.filter fun f =>
    f.ftype == DocFileType.doc && f.content.isSome && f.path != path &&
      (categoryOf f.path == categoryOf path)).map fun f => f.content.getD ""

/-- The known-file set of the C9 counterexample: one doc file two levels
below the target's parent directory. -/
def claim9DocInfo : DocInfo :=
  { files := [{ path := "docs/llm/sub/x.mdx", content := some "X"
                ftype := .doc, lastModified := none }]
    existingPR := none }

/-- C9 counterexample: for target `docs/llm/openai.mdx` (category `llm`) and
a known doc file `docs/llm/sub/x.mdx` with content, the code selects that
file (its path contains the substring `/llm/`) while the claim's
parent-segment rule selects nothing (its parent segment is `sub`). -/
theorem claim9_counterexample :
    categoryOf "docs/llm/openai.mdx" = some "llm" ∧
    findSimilarDocs "docs/llm/openai.mdx" "llm" none (some claim9DocInfo) = ["X"] ∧
    claimedCategorySelection "docs/llm/openai.mdx" claim9DocInfo.files = [] := by
  exact ⟨by decide, by decide, by decide⟩

/-- The template selection as the amended claim C9 words it: when supplied
template paths match known files with present, non-empty content, exactly
those contents are selected; otherwise the known files of kind doc with
present, non-empty content, excluding the target path, whose path contains
the substring `/<category>/` (category = the target's second-to-last
segment, as computed by the caller).  Worded from the amended claim for
comparison with the code's `findSimilarDocs`. -/
def amendedSimilarSelection (path category : String) (templatePaths : Option (List String))
    (docInfo : Option DocInfo) : List String :=
  let files := match docInfo with | some d => d.files | none => []
  let matched : List DocFile := files.filter fun f =>
    decide (f.path ∈ templatePaths.getD [] ∧ f.content ≠ none ∧ f.content ≠ some "")
  if matched ≠ [] then matched.map fun f => f.content.getD ""
  else
    (files.filter fun f =>
      decide (f.ftype = DocFileType.doc ∧ (f.content ≠ none ∧ f.content ≠ some "") ∧
        f.path ≠ path ∧ ("/" ++ category ++ "/").data <:+: f.path.data)).map
      fun f => f.content.getD ""

lemma truthyContent_iff (c : Option String) :
    truthyContent c = true ↔ c ≠ none ∧ c ≠ some "" := by
  cases c <;> simp [truthyContent]

lemma templPred_eq (l : List String) (f : DocFile) :
    (l.contains f.path && truthyContent f.content) =
      decide (f.path ∈ l ∧ f.content ≠ none ∧ f.content ≠ some "") := by
  rw [Bool.eq_iff_iff]
  simp [truthyContent_iff, List.contains_iff_exists_mem_beq]

lemma catPred_eq (path category : String) (f : DocFile) :
    (f.ftype == DocFileType.doc && truthyContent f.content && f.path != path &&
      containsStr f.path ("/" ++ category ++ "/")) =
    decide (f.ftype = DocFileType.doc ∧ (f.content ≠ none ∧ f.content ≠ some "") ∧
      f.path ≠ path ∧ ("/" ++ category ++ "/").data <:+: f.path.data) := by
  rw [Bool.eq_iff_iff]
  simp [containsStr, truthyContent_iff, and_assoc]

/-- C9 amended: `findSimilarDocs` selects exactly what the amended rule
describes — explicit template paths with present non-empty content when any
match, else the files of kind doc with present non-empty content, other than
the target, whose path contains the substring `/<category>/`.  Both sides
are pure functions of `(path, category, template paths, docInfo)`, so the
selection is deterministic. -/
theorem findSimilarDocs_eq_amended (path category : String)
    (tps : Option (List String)) (docInfo : Option DocInfo) :
    findSimilarDocs path category tps docInfo =
      amendedSimilarSelection path category tps docInfo := by
  unfold findSimilarDocs amendedSimilarSelection
  cases docInfo with
  | none =>
      cases tps with
      | none => simp [truthyList, categorySimilar]
      | some l => cases l <;> simp [truthyList, categorySimilar]
  | some d =>
      have hfilter :
          (if truthyList tps then
            d.files.filter fun f => (tps.getD []).contains f.path && truthyContent f.content
          else []) =
            d.files.filter fun f =>
              decide (f.path ∈ tps.getD [] ∧ f.content ≠ none ∧ f.content ≠ some "") := by
        cases tps with
        | none => simp [truthyList]
        | some l =>
            cases l with
            | nil => simp [truthyList]
            | cons x xs =>
                have ht : truthyList (some (x :: xs)) = true := by simp [truthyList]
                rw [ht]
                simp only [if_true, ite_true]
                exact List.filter_congr fun f _ => templPred_eq _ f
      have hcat :
          (d.files.filter fun f =>
            f.ftype == DocFileType.doc && truthyContent f.content && f.path != path &&
              containsStr f.path ("/" ++ category ++ "/")) =
            d.files.filter fun f =>
              decide (f.ftype = DocFileType.doc ∧ (f.content ≠ none ∧ f.content ≠ some "") ∧
                f.path ≠ path ∧ ("/" ++ category ++ "/").data <:+: f.path.data) :=
        List.filter_congr fun f _ => catPred_eq path category f
      simp only [Option.map_some', Option.getD_some, categorySimilar]
      rw [hfilter, hcat]
      refine if_congr ?_ rfl rfl
      simp [bne_iff_ne, ne_eq, List.length_eq_zero]

end DocsUpdater
